import Mathlib

/-!
Shallow embedding of `s2cnn/so3_ft.py`: the local SO(3) Fourier transform
`so3_ft` and its memoized matrix builder `setup_so3_ft`.

Modelling conventions:
* machine reals are modelled by `ℚ` (exact arithmetic), complex numbers by
  pairs `(re, im) : ℚ × ℚ`;
* a torch tensor is a flat data list together with its shape, dtype and
  device (`Tensor`);
* the external Wigner-D evaluator `wigner_D_matrix` (from `lie_learn`) is a
  parameter of every definition (`Evaluator`), returning the complex
  `(2l+1) × (2l+1)` matrix as a list of rows;
* `functools.lru_cache(maxsize=32)` is modelled by an association list kept
  in most-recently-used-first order (`Cache`), threaded explicitly;
* Python exceptions are `Except Err`.  The two `assert` statements of
  `so3_ft` are tagged `Err.OddColumnCount` (line 25) and
  `Err.DimensionMismatch` (line 26); numpy / torch runtime failures are
  tagged `Err.TypeError`, `Err.ValueError`, `Err.IndexError`,
  `Err.RuntimeError`, `Err.DTypeMismatch`.
-/

/-- Torch dtypes occurring in the embedding. -/
inductive DType where
  | float32 : DType
  | float64 : DType
  deriving DecidableEq, Repr

/-- A torch tensor: flat row-major data plus shape, dtype and device. -/
structure Tensor where
  shape : List ℕ
  data : List ℚ
  dtype : DType
  device_type : String
  device_index : Option ℤ
  deriving DecidableEq, Repr

/-- A tensor is well formed when its data size matches its shape. -/
def wfTensor (t : Tensor) : Prop := t.data.length = t.shape.prod

instance (t : Tensor) : Decidable (wfTensor t) := by
  unfold wfTensor; infer_instance

/-- Error outcomes of the embedded Python code. -/
inductive Err where
  | TypeError : Err
  | ValueError : Err
  | IndexError : Err
  | RuntimeError : Err
  | DimensionMismatch : Err
  | OddColumnCount : Err
  | DTypeMismatch : Err
  deriving DecidableEq, Repr

/-- A rotation grid: a list of (alpha, beta, gamma) angle triplets. -/
abbrev GridT := List (ℚ × ℚ × ℚ)

/-- The external Wigner-D evaluator: degree and angles to a complex matrix
(list of rows, entries as (re, im) pairs). -/
abbrev Evaluator := ℕ → ℚ × ℚ × ℚ → List (List (ℚ × ℚ))

/-- An evaluator is well behaved below bandwidth `b` when it returns a
`(2l+1) × (2l+1)` matrix for every degree `l < b`. -/
def wfEval (D : Evaluator) (b : ℕ) : Prop :=
  ∀ l, l < b → ∀ g : ℚ × ℚ × ℚ,
    (D l g).length = 2 * l + 1 ∧ ∀ r ∈ D l g, r.length = 2 * l + 1

/-- Complex conjugate of one matrix row (`.conj()` on the Wigner-D matrix). -/
def conjRow (r : List (ℚ × ℚ)) : List (ℚ × ℚ) := r.map (fun z => (z.1, -z.2))

/-- Row `i` of the complex matrix `F`:
`np.hstack([wigner_D_matrix(l, *grid[i], ...).conj().flatten() for l in range(b)])`. -/
def wignerRow (D : Evaluator) (b : ℕ) (g : ℚ × ℚ × ℚ) : List (ℚ × ℚ) :=
  ((List.range b).map (fun l => ((D l g).map conjRow).flatten)).flatten

/-- `n_spectral = np.sum([(2 * l + 1) ** 2 for l in range(b)])`. -/
def n_spectral (b : ℕ) : ℕ := ((List.range b).map (fun l => (2 * l + 1) ^ 2)).sum

/-- `F.view('float')` on one row: interleave real and imaginary parts. -/
def viewFloat (r : List (ℚ × ℚ)) : List ℚ := r.flatMap (fun z => [z.1, z.2])

/-- The row-filling loop of `setup_so3_ft`: builds the complex rows of `F`
left to right and counts the Wigner-D evaluator invocations (`b` per grid
point, spent before the row is stored).  The numpy assignment
`F[i] = hstack(...)` accepts a row of length `n_spectral` verbatim,
broadcasts a length-1 row, and raises `ValueError` otherwise. -/
def buildRows (D : Evaluator) (b : ℕ) (ns : ℕ) :
    List (ℚ × ℚ × ℚ) → Except Err (List (List (ℚ × ℚ))) × ℕ
  | [] => (Except.ok [], 0)
  | g :: gs =>
    let row := wignerRow D b g
    if row.length = ns then
      match buildRows D b ns gs with
      | (Except.ok rows, c) => (Except.ok (row :: rows), b + c)
      | (Except.error e, c) => (Except.error e, b + c)
    else if row.length = 1 then
      match buildRows D b ns gs with
      | (Except.ok rows, c) => (Except.ok (List.replicate ns (row.getD 0 (0, 0)) :: rows), b + c)
      | (Except.error e, c) => (Except.error e, b + c)
    else (Except.error Err.ValueError, b)

/-- `setup_so3_ft(b, grid, device_type, device_index)` without the cache:
samples the conjugated Wigner-D functions on the grid, reinterprets the
complex matrix as real with interleaved parts, and places the `float32`
result on the requested device.  For `b ≤ 0` the comprehension
`[(2*l+1)**2 for l in range(b)]` is empty, `np.sum([])` is the float `0.0`,
and `np.zeros((n_spatial, 0.0))` raises `TypeError`. -/
def setup_so3_ft (D : Evaluator) (b : ℤ) (grid : GridT)
    (device_type : String) (device_index : Option ℤ) : Except Err Tensor :=
  if b ≤ 0 then Except.error Err.TypeError
  else
    let ns := n_spectral b.toNat
    match (buildRows D b.toNat ns grid).1 with
    | Except.ok rows =>
        Except.ok ⟨[grid.length, 2 * ns], (rows.map viewFloat).flatten,
          DType.float32, device_type, device_index⟩
    | Except.error e => Except.error e

/-- Number of Wigner-D evaluator invocations spent by one uncached run of
`setup_so3_ft` (0 when `b ≤ 0`: the failure precedes the loop). -/
def setup_calls (D : Evaluator) (b : ℤ) (grid : GridT) : ℕ :=
  if b ≤ 0 then 0 else (buildRows D b.toNat (n_spectral b.toNat) grid).2

/-- Cache key of `lru_cache`: the full argument tuple
`(b, grid, device_type, device_index)`. -/
abbrev Key := ℤ × GridT × String × Option ℤ

/-- The `lru_cache(maxsize=32)` state: entries most-recently-used first. -/
abbrev Cache := List (Key × Tensor)

/-- Lookup in the memoization cache. -/
def cacheLookup (c : Cache) (k : Key) : Option Tensor :=
  (c.find? (fun p => decide (p.1 = k))).map Prod.snd

/-- `setup_so3_ft` as decorated by `@lru_cache(maxsize=32)`: on a hit the
cached tensor is returned and moved to most-recently-used position with no
evaluator call; on a miss the matrix is built, and a successful result is
inserted in front, evicting the least recently used entry beyond capacity
32.  A raising call caches nothing.  Returns (result, new cache, number of
evaluator invocations). -/
def setup_so3_ft_cached (D : Evaluator) (c : Cache) (b : ℤ) (grid : GridT)
    (device_type : String) (device_index : Option ℤ) :
    Except Err Tensor × Cache × ℕ :=
  let k : Key := (b, grid, device_type, device_index)
  match cacheLookup c k with
  | some v => (Except.ok v, (k, v) :: c.filter (fun p => !decide (p.1 = k)), 0)
  | none =>
    match setup_so3_ft D b grid device_type device_index with
    | Except.ok F => (Except.ok F, ((k, F) :: c).take 32, setup_calls D b grid)
    | Except.error e => (Except.error e, c, setup_calls D b grid)

/-- Dense matrix product `torch.mm` on flat data: `A` is `n × k`, `B` is
`k × m`, result is `n × m`. -/
def mmData (n k m : ℕ) (A B : List ℚ) : List ℚ :=
  (List.range (n * m)).map (fun idx =>
    ((List.range k).map (fun t =>
      A.getD (idx / m * k + t) 0 * B.getD (t * m + idx % m) 0)).sum)

/-- Lines 22-37 of `so3_ft`, applied to an already built matrix `F`:
shape bookkeeping, the two assertions, `x.view(-1, n_spatial)`, `torch.mm`
and the final reshape.  The second component counts executed matrix
multiplies.  `x.view(-1, n_spatial)` raises `RuntimeError` when
`n_spatial = 0` or the element count is not divisible; `torch.mm` raises
when the dtypes of its arguments differ; the final `view` raises when the
element count does not match the target shape. -/
def so3_ft_apply (F x : Tensor) : Except Err Tensor × ℕ :=
  match x.shape.getLast? with
  | none => (Except.error Err.IndexError, 0)
  | some n_spatial =>
    let Fcols := F.shape.getLastD 0
    let ns := Fcols / 2
    if Fcols % 2 ≠ 0 then (Except.error Err.OddColumnCount, 0)
    else if n_spatial ≠ F.shape.headD 0 then (Except.error Err.DimensionMismatch, 0)
    else if n_spatial = 0 ∨ x.data.length % n_spatial ≠ 0 then
      (Except.error Err.RuntimeError, 0)
    else if x.dtype ≠ F.dtype then (Except.error Err.DTypeMismatch, 0)
    else
      let N := x.data.length / n_spatial
      let res := mmData N n_spatial Fcols x.data F.data
      let outShape := x.shape.dropLast ++ [ns, 2]
      if res.length = outShape.prod then
        (Except.ok ⟨outShape, res, x.dtype, x.device_type, x.device_index⟩, 1)
      else (Except.error Err.RuntimeError, 1)

/-- `so3_ft(x, b, grid)` with a cold cache: builds the matrix for `x`'s
device and applies it. -/
def so3_ft (D : Evaluator) (x : Tensor) (b : ℤ) (grid : GridT) :
    Except Err Tensor :=
  match setup_so3_ft D b grid x.device_type x.device_index with
  | Except.error e => Except.error e
  | Except.ok F => (so3_ft_apply F x).1

/-- `so3_ft(x, b, grid)` with the process-wide cache threaded explicitly.
Returns (result, new cache, evaluator invocations, matrix multiplies).
The matrix is requested from the builder (line 19) before any validation
of `x`. -/
def so3_ftSt (D : Evaluator) (c : Cache) (x : Tensor) (b : ℤ) (grid : GridT) :
    Except Err Tensor × Cache × ℕ × ℕ :=
  match setup_so3_ft_cached D c b grid x.device_type x.device_index with
  | (Except.error e, c', n) => (Except.error e, c', n, 0)
  | (Except.ok F, c', n) => ((so3_ft_apply F x).1, c', n, (so3_ft_apply F x).2)

/-- Elementwise tensor addition (`x1 + x2` on same-shape tensors). -/
def tadd (x y : Tensor) : Tensor :=
  ⟨x.shape, List.zipWith (· + ·) x.data y.data, x.dtype, x.device_type, x.device_index⟩

deriving instance DecidableEq for Except

/-- A fixed test evaluator: every degree answers the 1 × 1 matrix `[[1]]`. -/
def D0 : Evaluator := fun _ _ => [[(1, 0)]]

/-- A default key (used only as the default of `headD` / `getLastD`). -/
def dKey : Key := (1, [], "", none)

/-- One cached-builder call packaged on a `Key`. -/
def callKey (D : Evaluator) (c : Cache) (k : Key) : Except Err Tensor × Cache × ℕ :=
  setup_so3_ft_cached D c k.1 k.2.1 k.2.2.1 k.2.2.2

/-- Sequentially build (and cache) the matrices of a list of keys. -/
def insertKeys (D : Evaluator) : Cache → List Key → Cache
  | c, [] => c
  | c, k :: ks => insertKeys D (callKey D c k).2.1 ks

/-- 33 pairwise-distinct cache keys (same bandwidth and grid, device indices
0..32), enough to overflow the capacity-32 cache by one. -/
def keys33 : List Key :=
  (List.range 33).map (fun i => ((1 : ℤ), [(0, 0, 0)], "cpu", some (i : ℤ)))

/-! ### Length and shape lemmas for the builder -/

theorem sum_const_of_mem {l : List ℕ} {c : ℕ} (h : ∀ x ∈ l, x = c) :
    l.sum = l.length * c := by
  induction l with
  | nil => simp
  | cons a t ih =>
    simp only [List.sum_cons, List.length_cons]
    rw [h a (by simp), ih (fun x hx => h x (by simp [hx]))]
    ring

theorem length_conjRow (r : List (ℚ × ℚ)) : (conjRow r).length = r.length := by
  simp [conjRow]

theorem length_wignerRow {D : Evaluator} {b : ℕ} (hD : wfEval D b) (g : ℚ × ℚ × ℚ) :
    (wignerRow D b g).length = n_spectral b := by
  unfold wignerRow n_spectral
  rw [List.length_flatten, List.map_map]
  congr 1
  refine List.map_congr_left (fun l hl => ?_)
  obtain ⟨hlen, hrow⟩ := hD l (List.mem_range.mp hl) g
  have h1 : ∀ x ∈ ((D l g).map conjRow).map List.length, x = 2 * l + 1 := by
    intro x hx
    simp only [List.map_map, List.mem_map, Function.comp_apply] at hx
    obtain ⟨r, hr, rfl⟩ := hx
    simpa [conjRow] using hrow r hr
  simp only [Function.comp_apply, List.length_flatten]
  rw [sum_const_of_mem h1, List.length_map, List.length_map, hlen]
  ring

theorem length_viewFloat (r : List (ℚ × ℚ)) : (viewFloat r).length = 2 * r.length := by
  induction r with
  | nil => simp [viewFloat]
  | cons a t ih =>
    simp only [viewFloat, List.flatMap_cons, List.length_append, List.length_cons,
      List.length_nil] at ih ⊢
    omega

theorem n_spectral_succ (m : ℕ) : n_spectral (m + 1) = n_spectral m + (2 * m + 1) ^ 2 := by
  simp [n_spectral, List.range_succ]

theorem n_spectral_pos {b : ℕ} (hb : 0 < b) : 0 < n_spectral b := by
  obtain ⟨m, rfl⟩ := Nat.exists_eq_add_of_lt hb
  rw [Nat.zero_add, n_spectral_succ]
  have : 0 < (2 * m + 1) ^ 2 := pow_pos (by omega) 2
  omega

theorem buildRows_of_wf {D : Evaluator} {b : ℕ} (hD : wfEval D b) (grid : GridT) :
    buildRows D b (n_spectral b) grid =
      (Except.ok (grid.map (wignerRow D b)), grid.length * b) := by
  induction grid with
  | nil => simp [buildRows]
  | cons g gs ih =>
    simp only [buildRows, length_wignerRow hD, ih, if_pos, List.length_cons,
      List.map_cons, Prod.mk.injEq]
    exact ⟨trivial, by ring⟩

theorem setup_so3_ft_of_wf {D : Evaluator} {b : ℤ} (hb : 0 < b) (hD : wfEval D b.toNat)
    (grid : GridT) (dT : String) (dI : Option ℤ) :
    setup_so3_ft D b grid dT dI =
      Except.ok ⟨[grid.length, 2 * n_spectral b.toNat],
        ((grid.map (wignerRow D b.toNat)).map viewFloat).flatten, DType.float32, dT, dI⟩ ∧
    setup_calls D b grid = grid.length * b.toNat := by
  have hnb : ¬ b ≤ 0 := by omega
  constructor
  · simp only [setup_so3_ft, if_neg hnb, buildRows_of_wf hD]
  · simp only [setup_calls, if_neg hnb, buildRows_of_wf hD]

theorem buildRows_error {D : Evaluator} {b ns : ℕ} :
    ∀ {grid : GridT} {e : Err} {c : ℕ},
      buildRows D b ns grid = (Except.error e, c) → e = Err.ValueError := by
  intro grid
  induction grid with
  | nil => intro e c h; simp [buildRows] at h
  | cons g gs ih =>
    intro e c h
    simp only [buildRows] at h
    split at h
    · split at h
      · simp at h
      · next heq =>
          simp only [Prod.mk.injEq, Except.error.injEq] at h
          exact h.1.symm.trans (ih heq)
    · split at h
      · split at h
        · simp at h
        · next heq =>
            simp only [Prod.mk.injEq, Except.error.injEq] at h
            exact h.1.symm.trans (ih heq)
      · simp only [Prod.mk.injEq, Except.error.injEq] at h
        exact h.1.symm

theorem buildRows_fst_error {D : Evaluator} {b ns : ℕ} {grid : GridT} {e : Err}
    (h : (buildRows D b ns grid).1 = Except.error e) : e = Err.ValueError := by
  have h2 : buildRows D b ns grid = (Except.error e, (buildRows D b ns grid).2) := by
    rw [← h]
  exact buildRows_error h2

theorem setup_so3_ft_ok_inv {D : Evaluator} {b : ℤ} {grid : GridT} {dT : String}
    {dI : Option ℤ} {F : Tensor}
    (hF : setup_so3_ft D b grid dT dI = Except.ok F) :
    0 < b ∧ F.shape = [grid.length, 2 * n_spectral b.toNat] ∧ F.dtype = DType.float32 := by
  simp only [setup_so3_ft] at hF
  split at hF
  · simp at hF
  · next hb =>
    refine ⟨by omega, ?_⟩
    split at hF
    · obtain rfl := Except.ok.inj hF
      exact ⟨rfl, rfl⟩
    · simp at hF

theorem setup_so3_ft_error_inv {D : Evaluator} {b : ℤ} {grid : GridT} {dT : String}
    {dI : Option ℤ} {e : Err}
    (hF : setup_so3_ft D b grid dT dI = Except.error e) :
    e = Err.TypeError ∨ e = Err.ValueError := by
  simp only [setup_so3_ft] at hF
  split at hF
  · exact Or.inl (Except.error.inj hF).symm
  · split at hF
    · simp at hF
    · next heq =>
      obtain rfl := Except.error.inj hF
      exact Or.inr (buildRows_fst_error heq)

theorem length_mmData (n k m : ℕ) (A B : List ℚ) : (mmData n k m A B).length = n * m := by
  simp [mmData]

theorem length_Fdata {D : Evaluator} {b : ℕ} (hD : wfEval D b) (grid : GridT) :
    (((grid.map (wignerRow D b)).map viewFloat).flatten).length
      = grid.length * (2 * n_spectral b) := by
  rw [List.length_flatten]
  have h1 : ∀ x ∈ ((grid.map (wignerRow D b)).map viewFloat).map List.length,
      x = 2 * n_spectral b := by
    intro x hx
    simp only [List.map_map, List.mem_map, Function.comp_apply] at hx
    obtain ⟨g, hg, rfl⟩ := hx
    rw [length_viewFloat, length_wignerRow hD]
  rw [sum_const_of_mem h1, List.length_map, List.length_map, List.length_map]

theorem prod_eq_dropLast_mul {s : List ℕ} {R : ℕ} (h : s.getLast? = some R) :
    s.prod = s.dropLast.prod * R := by
  have hne : s ≠ [] := by rintro rfl; simp at h
  have hg : s.getLast hne = R := by
    have h2 := List.getLast?_eq_getLast s hne
    rw [h2] at h
    exact Option.some.inj h
  conv_lhs => rw [← List.dropLast_append_getLast hne]
  rw [List.prod_append, hg]
  simp

theorem getLastD_pair (a c d : ℕ) : ([a, c] : List ℕ).getLastD d = c := rfl

theorem headD_pair (a c d : ℕ) : ([a, c] : List ℕ).headD d = a := rfl

/-! ### Branch analysis of the forward transform -/

theorem so3_ft_apply_ok {F x : Tensor} {R ns : ℕ}
    (hF : F.shape = [R, 2 * ns]) (hR : 0 < R)
    (hlast : x.shape.getLast? = some R)
    (hwf : wfTensor x) (hdt : x.dtype = F.dtype) :
    so3_ft_apply F x =
      (Except.ok ⟨x.shape.dropLast ++ [ns, 2],
        mmData x.shape.dropLast.prod R (2 * ns) x.data F.data,
        x.dtype, x.device_type, x.device_index⟩, 1) := by
  have hprod : x.data.length = x.shape.dropLast.prod * R := by
    rw [hwf, prod_eq_dropLast_mul hlast]
  have hmod : x.data.length % R = 0 := by rw [hprod]; exact Nat.mul_mod_left _ _
  have hN : x.data.length / R = x.shape.dropLast.prod := by
    rw [hprod]; exact Nat.mul_div_cancel _ hR
  have hns2 : 2 * ns / 2 = ns := by omega
  unfold so3_ft_apply
  simp only [hlast, hF, getLastD_pair, headD_pair, hns2]
  have e1 : ¬ (2 * ns % 2 ≠ 0) := by simp [Nat.mul_mod_right]
  have e2 : ¬ (R ≠ R) := by simp
  have e3 : ¬ (R = 0 ∨ x.data.length % R ≠ 0) := by
    push_neg
    exact ⟨by omega, hmod⟩
  have e4 : ¬ (x.dtype ≠ F.dtype) := by simp [hdt]
  rw [if_neg e1, if_neg e2, if_neg e3, if_neg e4]
  have e5 : (mmData (x.data.length / R) R (2 * ns) x.data F.data).length
      = (x.shape.dropLast ++ [ns, 2]).prod := by
    rw [length_mmData, hN, List.prod_append]
    simp only [List.prod_cons, List.prod_nil]
    ring
  rw [if_pos e5, hN]

theorem so3_ft_apply_dim_mismatch {F x : Tensor} {R ns t : ℕ}
    (hF : F.shape = [R, 2 * ns])
    (hlast : x.shape.getLast? = some t) (hne : t ≠ R) :
    so3_ft_apply F x = (Except.error Err.DimensionMismatch, 0) := by
  unfold so3_ft_apply
  simp only [hlast, hF, getLastD_pair, headD_pair]
  rw [if_neg (by simp [Nat.mul_mod_right]), if_pos hne]

theorem so3_ft_apply_dtype_mismatch {F x : Tensor} {R ns : ℕ}
    (hF : F.shape = [R, 2 * ns]) (hR : 0 < R)
    (hlast : x.shape.getLast? = some R) (hwf : wfTensor x)
    (hdt : x.dtype ≠ F.dtype) :
    so3_ft_apply F x = (Except.error Err.DTypeMismatch, 0) := by
  have hprod : x.data.length = x.shape.dropLast.prod * R := by
    rw [hwf, prod_eq_dropLast_mul hlast]
  have hmod : x.data.length % R = 0 := by rw [hprod]; exact Nat.mul_mod_left _ _
  unfold so3_ft_apply
  simp only [hlast, hF, getLastD_pair, headD_pair]
  have e1 : ¬ (2 * ns % 2 ≠ 0) := by simp [Nat.mul_mod_right]
  have e2 : ¬ (R ≠ R) := by simp
  have e3 : ¬ (R = 0 ∨ x.data.length % R ≠ 0) := by
    push_neg
    exact ⟨by omega, hmod⟩
  rw [if_neg e1, if_neg e2, if_neg e3, if_pos hdt]

theorem so3_ft_apply_ne_odd {F x : Tensor} (heven : F.shape.getLastD 0 % 2 = 0) :
    (so3_ft_apply F x).1 ≠ Except.error Err.OddColumnCount := by
  unfold so3_ft_apply
  cases hx : x.shape.getLast? with
  | none => simp
  | some t =>
    simp only []
    split_ifs with h1 h2 h3 h4 h5 <;> simp_all

theorem wfD0 : wfEval D0 1 := by
  intro l hl g
  have hl0 : l = 0 := by omega
  subst hl0
  refine ⟨rfl, ?_⟩
  intro r hr
  simp only [D0, List.mem_singleton] at hr
  simp [hr]

/-- C1: for every positive bandwidth `b` and non-empty grid, the matrix built
by `setup_so3_ft` has `len(grid)` rows and `2 * Σ_{l<b} (2l+1)²` columns, and
for every input of shape (d1, ..., dk, n_spatial) with `n_spatial = len(grid)`
the transform `so3_ft(x, b, grid)` has shape (d1, ..., dk, n_spectral, 2) with
`n_spectral = Σ_{l<b} (2l+1)²`. -/
theorem so3_ft_shapes (D : Evaluator) (b : ℤ) (grid : GridT) (x : Tensor)
    (hb : 0 < b) (hg : grid ≠ []) (hD : wfEval D b.toNat)
    (hwf : wfTensor x) (hlast : x.shape.getLast? = some grid.length)
    (hdt : x.dtype = DType.float32) :
    ∃ F y, setup_so3_ft D b grid x.device_type x.device_index = Except.ok F ∧
      F.shape = [grid.length, 2 * n_spectral b.toNat] ∧
      so3_ft D x b grid = Except.ok y ∧
      y.shape = x.shape.dropLast ++ [n_spectral b.toNat, 2] := by
  obtain ⟨hset, _⟩ := setup_so3_ft_of_wf hb hD grid x.device_type x.device_index
  refine ⟨_, ⟨x.shape.dropLast ++ [n_spectral b.toNat, 2],
      mmData x.shape.dropLast.prod grid.length (2 * n_spectral b.toNat) x.data
        (((grid.map (wignerRow D b.toNat)).map viewFloat).flatten),
      x.dtype, x.device_type, x.device_index⟩, hset, rfl, ?_, rfl⟩
  simp only [so3_ft, hset]
  rw [so3_ft_apply_ok rfl (List.length_pos.mpr hg) hlast hwf (by rw [hdt])]

/-- Witness for C1 at `b = 1`, a one-point grid and a (2, 1)-shaped input. -/
theorem so3_ft_shapes_witness :
    ∃ F y, setup_so3_ft D0 1 [(0, 0, 0)] "cpu" none = Except.ok F ∧
      F.shape = [[((0 : ℚ), (0 : ℚ), (0 : ℚ))].length, 2 * n_spectral (1 : ℤ).toNat] ∧
      so3_ft D0 ⟨[2, 1], [5, 7], DType.float32, "cpu", none⟩ 1 [(0, 0, 0)] = Except.ok y ∧
      y.shape = [2, 1].dropLast ++ [n_spectral (1 : ℤ).toNat, 2] :=
  so3_ft_shapes D0 1 [(0, 0, 0)] ⟨[2, 1], [5, 7], DType.float32, "cpu", none⟩
    (by decide) (by decide) wfD0 (by decide) rfl rfl

/-- C2: for `b = 1` and a single-rotation grid, assuming the evaluator answers
the 1 × 1 matrix [[1]] at degree 0, the built matrix is [[1.0, 0.0]] and the
transform of x = [[v]] is [[[v, 0.0]]]. -/
theorem so3_ft_bandwidth_one (D : Evaluator) (g : ℚ × ℚ × ℚ) (v : ℚ)
    (dT : String) (dI : Option ℤ)
    (hD : D 0 g = [[(1, 0)]]) :
    setup_so3_ft D 1 [g] dT dI = Except.ok ⟨[1, 2], [1, 0], DType.float32, dT, dI⟩ ∧
    so3_ft D ⟨[1, 1], [v], DType.float32, dT, dI⟩ 1 [g] =
      Except.ok ⟨[1, 1, 2], [v, 0], DType.float32, dT, dI⟩ := by
  have hr1 : List.range 1 = [0] := rfl
  have hrow : wignerRow D 1 g = [(1, 0)] := by
    simp [wignerRow, hr1, hD, conjRow]
  have hns : n_spectral 1 = 1 := rfl
  have hsetup : setup_so3_ft D 1 [g] dT dI =
      Except.ok ⟨[1, 2], [1, 0], DType.float32, dT, dI⟩ := by
    simp [setup_so3_ft, buildRows, Int.toNat_one, hrow, hns, viewFloat]
  refine ⟨hsetup, ?_⟩
  simp only [so3_ft, hsetup]
  rw [so3_ft_apply_ok (F := ⟨[1, 2], [1, 0], DType.float32, dT, dI⟩)
      (x := ⟨[1, 1], [v], DType.float32, dT, dI⟩) (R := 1)
      (show (⟨[1, 2], [1, 0], DType.float32, dT, dI⟩ : Tensor).shape = [1, 2 * 1] from rfl)
      (by omega) rfl rfl rfl]
  simp [mmData, List.range_succ]

/-- Witness for C2 at the identity rotation and x = [[3]]. -/
theorem so3_ft_bandwidth_one_witness :
    setup_so3_ft D0 1 [(0, 0, 0)] "cpu" none =
      Except.ok ⟨[1, 2], [1, 0], DType.float32, "cpu", none⟩ ∧
    so3_ft D0 ⟨[1, 1], [3], DType.float32, "cpu", none⟩ 1 [(0, 0, 0)] =
      Except.ok ⟨[1, 1, 2], [3, 0], DType.float32, "cpu", none⟩ :=
  so3_ft_bandwidth_one D0 (0, 0, 0) 3 "cpu" none rfl

/-! ### Cache lemmas -/

theorem cacheLookup_cons_self (c : Cache) (k : Key) (v : Tensor) :
    cacheLookup ((k, v) :: c) k = some v := by
  unfold cacheLookup
  rw [List.find?_cons_of_pos _ (by simp)]
  rfl

theorem cacheLookup_take_cons_self (c : Cache) (k : Key) (v : Tensor) (n : ℕ) :
    cacheLookup (((k, v) :: c).take (n + 1)) k = some v := by
  rw [List.take_succ_cons]
  exact cacheLookup_cons_self _ _ _

theorem cacheLookup_eq_none_iff {c : Cache} {k : Key} :
    cacheLookup c k = none ↔ k ∉ c.map Prod.fst := by
  unfold cacheLookup
  rw [Option.map_eq_none', List.find?_eq_none]
  constructor
  · intro h hk
    obtain ⟨p, hp, hpk⟩ := List.mem_map.mp hk
    exact h p hp (decide_eq_true hpk)
  · intro h p hp hdec
    exact h (List.mem_map.mpr ⟨p, hp, of_decide_eq_true hdec⟩)

theorem cacheLookup_isSome_of_mem {c : Cache} {k : Key} (h : k ∈ c.map Prod.fst) :
    ∃ v, cacheLookup c k = some v := by
  cases hc : cacheLookup c k with
  | some v => exact ⟨v, rfl⟩
  | none => exact absurd h (cacheLookup_eq_none_iff.mp hc)

theorem setup_so3_ft_cached_hit {D : Evaluator} {c : Cache} {b : ℤ} {grid : GridT}
    {dT : String} {dI : Option ℤ} {v : Tensor}
    (h : cacheLookup c (b, grid, dT, dI) = some v) :
    setup_so3_ft_cached D c b grid dT dI =
      (Except.ok v, ((b, grid, dT, dI), v) ::
        c.filter (fun p => !decide (p.1 = (b, grid, dT, dI))), 0) := by
  simp only [setup_so3_ft_cached, h]

theorem setup_so3_ft_cached_miss_ok {D : Evaluator} {c : Cache} {b : ℤ} {grid : GridT}
    {dT : String} {dI : Option ℤ} {F : Tensor}
    (h : cacheLookup c (b, grid, dT, dI) = none)
    (hset : setup_so3_ft D b grid dT dI = Except.ok F) :
    setup_so3_ft_cached D c b grid dT dI =
      (Except.ok F, (((b, grid, dT, dI), F) :: c).take 32, setup_calls D b grid) := by
  simp only [setup_so3_ft_cached, h, hset]

/-- C3: with identical (b, grid, device) arguments, two consecutive cached
builds return element-wise identical matrices; the first pays exactly
`len(grid) * b` Wigner-D evaluator invocations, the second pays 0. -/
theorem setup_so3_ft_cached_idempotent (D : Evaluator) (c : Cache) (b : ℤ)
    (grid : GridT) (dT : String) (dI : Option ℤ)
    (hb : 0 < b) (hD : wfEval D b.toNat)
    (hfresh : cacheLookup c (b, grid, dT, dI) = none) :
    ∃ F,
      (setup_so3_ft_cached D c b grid dT dI).1 = Except.ok F ∧
      (setup_so3_ft_cached D c b grid dT dI).2.2 = grid.length * b.toNat ∧
      (setup_so3_ft_cached D (setup_so3_ft_cached D c b grid dT dI).2.1 b grid dT dI).1
        = Except.ok F ∧
      (setup_so3_ft_cached D (setup_so3_ft_cached D c b grid dT dI).2.1 b grid dT dI).2.2
        = 0 := by
  obtain ⟨hset, hcalls⟩ := setup_so3_ft_of_wf hb hD grid dT dI
  have h1 := setup_so3_ft_cached_miss_ok hfresh hset
  have h2 : cacheLookup (setup_so3_ft_cached D c b grid dT dI).2.1 (b, grid, dT, dI)
      = some ⟨[grid.length, 2 * n_spectral b.toNat],
          ((grid.map (wignerRow D b.toNat)).map viewFloat).flatten, DType.float32, dT, dI⟩ := by
    rw [h1]
    exact cacheLookup_take_cons_self c _ _ 31
  have h3 := setup_so3_ft_cached_hit (D := D) h2
  refine ⟨_, by rw [h1], ?_, by rw [h3], by rw [h3]⟩
  rw [h1]
  exact hcalls

/-- Witness for C3 on an initially empty cache. -/
theorem setup_so3_ft_cached_idempotent_witness :
    ∃ F,
      (setup_so3_ft_cached D0 [] 1 [(0, 0, 0)] "cpu" none).1 = Except.ok F ∧
      (setup_so3_ft_cached D0 [] 1 [(0, 0, 0)] "cpu" none).2.2
        = [((0 : ℚ), (0 : ℚ), (0 : ℚ))].length * (1 : ℤ).toNat ∧
      (setup_so3_ft_cached D0 (setup_so3_ft_cached D0 [] 1 [(0, 0, 0)] "cpu" none).2.1
          1 [(0, 0, 0)] "cpu" none).1 = Except.ok F ∧
      (setup_so3_ft_cached D0 (setup_so3_ft_cached D0 [] 1 [(0, 0, 0)] "cpu" none).2.1
          1 [(0, 0, 0)] "cpu" none).2.2 = 0 :=
  setup_so3_ft_cached_idempotent D0 [] 1 [(0, 0, 0)] "cpu" none (by decide) wfD0 rfl

/-- C5: a transform call whose input trailing axis length differs from
`len(grid)` fails with DimensionMismatch and performs no matrix multiply. -/
theorem so3_ft_dimension_mismatch (D : Evaluator) (c : Cache) (x : Tensor) (b : ℤ)
    (grid : GridT) (t : ℕ)
    (hb : 0 < b) (hD : wfEval D b.toNat)
    (hfresh : cacheLookup c (b, grid, x.device_type, x.device_index) = none)
    (hlast : x.shape.getLast? = some t) (hne : t ≠ grid.length) :
    (so3_ftSt D c x b grid).1 = Except.error Err.DimensionMismatch ∧
    (so3_ftSt D c x b grid).2.2.2 = 0 := by
  obtain ⟨hset, _⟩ := setup_so3_ft_of_wf hb hD grid x.device_type x.device_index
  have h1 := setup_so3_ft_cached_miss_ok hfresh hset
  obtain ⟨-, hshape, -⟩ := setup_so3_ft_ok_inv hset
  have happ := so3_ft_apply_dim_mismatch hshape hlast hne
  constructor
  · simp only [so3_ftSt, h1, happ]
  · simp only [so3_ftSt, h1, happ]

/-- Witness for C5: a length-2 trailing axis against a one-point grid. -/
theorem so3_ft_dimension_mismatch_witness :
    (so3_ftSt D0 [] ⟨[2], [5, 7], DType.float32, "cpu", none⟩ 1 [(0, 0, 0)]).1
      = Except.error Err.DimensionMismatch ∧
    (so3_ftSt D0 [] ⟨[2], [5, 7], DType.float32, "cpu", none⟩ 1 [(0, 0, 0)]).2.2.2 = 0 :=
  so3_ft_dimension_mismatch D0 [] ⟨[2], [5, 7], DType.float32, "cpu", none⟩ 1
    [(0, 0, 0)] 2 (by decide) wfD0 rfl rfl (by decide)

/-- C10: `so3_ft` requests the matrix before validating the input's trailing
axis, so a DimensionMismatch failure has already built and cached the matrix,
and a later build with the same key is a cache hit costing 0 evaluator
invocations. -/
theorem so3_ft_caches_before_check (D : Evaluator) (c : Cache) (x : Tensor) (b : ℤ)
    (grid : GridT) (t : ℕ)
    (hb : 0 < b) (hD : wfEval D b.toNat)
    (hfresh : cacheLookup c (b, grid, x.device_type, x.device_index) = none)
    (hlast : x.shape.getLast? = some t) (hne : t ≠ grid.length) :
    ∃ F,
      (so3_ftSt D c x b grid).1 = Except.error Err.DimensionMismatch ∧
      cacheLookup (so3_ftSt D c x b grid).2.1 (b, grid, x.device_type, x.device_index)
        = some F ∧
      (setup_so3_ft_cached D (so3_ftSt D c x b grid).2.1 b grid x.device_type
          x.device_index).1 = Except.ok F ∧
      (setup_so3_ft_cached D (so3_ftSt D c x b grid).2.1 b grid x.device_type
          x.device_index).2.2 = 0 := by
  obtain ⟨hset, _⟩ := setup_so3_ft_of_wf hb hD grid x.device_type x.device_index
  have h1 := setup_so3_ft_cached_miss_ok hfresh hset
  obtain ⟨-, hshape, -⟩ := setup_so3_ft_ok_inv hset
  have happ := so3_ft_apply_dim_mismatch hshape hlast hne
  have hcache : (so3_ftSt D c x b grid).2.1
      = (((b, grid, x.device_type, x.device_index),
          (⟨[grid.length, 2 * n_spectral b.toNat],
            ((grid.map (wignerRow D b.toNat)).map viewFloat).flatten, DType.float32,
            x.device_type, x.device_index⟩ : Tensor)) :: c).take 32 := by
    simp only [so3_ftSt, h1, happ]
  have h2 : cacheLookup (so3_ftSt D c x b grid).2.1
      (b, grid, x.device_type, x.device_index)
      = some ⟨[grid.length, 2 * n_spectral b.toNat],
          ((grid.map (wignerRow D b.toNat)).map viewFloat).flatten, DType.float32,
          x.device_type, x.device_index⟩ := by
    rw [hcache]
    exact cacheLookup_take_cons_self c _ _ 31
  have h3 := setup_so3_ft_cached_hit (D := D) h2
  refine ⟨_, ?_, h2, by rw [h3], by rw [h3]⟩
  simp only [so3_ftSt, h1, happ]

/-- Witness for C10: after the failing call the key is cached and hits. -/
theorem so3_ft_caches_before_check_witness :
    ∃ F,
      (so3_ftSt D0 [] ⟨[2], [5, 7], DType.float32, "cpu", none⟩ 1 [(0, 0, 0)]).1
        = Except.error Err.DimensionMismatch ∧
      cacheLookup (so3_ftSt D0 [] ⟨[2], [5, 7], DType.float32, "cpu", none⟩ 1
          [(0, 0, 0)]).2.1 (1, [(0, 0, 0)], "cpu", none) = some F ∧
      (setup_so3_ft_cached D0 (so3_ftSt D0 [] ⟨[2], [5, 7], DType.float32, "cpu", none⟩
          1 [(0, 0, 0)]).2.1 1 [(0, 0, 0)] "cpu" none).1 = Except.ok F ∧
      (setup_so3_ft_cached D0 (so3_ftSt D0 [] ⟨[2], [5, 7], DType.float32, "cpu", none⟩
          1 [(0, 0, 0)]).2.1 1 [(0, 0, 0)] "cpu" none).2.2 = 0 :=
  so3_ft_caches_before_check D0 [] ⟨[2], [5, 7], DType.float32, "cpu", none⟩ 1
    [(0, 0, 0)] 2 (by decide) wfD0 rfl rfl (by decide)

/-- C8: the forward transform checks the column count of the built matrix for
evenness; every matrix the builder returns has an even column count, so
`so3_ft` can never fail with OddColumnCount. -/
theorem so3_ft_even_columns (D : Evaluator) (b : ℤ) (grid : GridT) (dT : String)
    (dI : Option ℤ) (F x : Tensor)
    (hF : setup_so3_ft D b grid dT dI = Except.ok F) :
    F.shape.getLastD 0 % 2 = 0 ∧
    so3_ft D x b grid ≠ Except.error Err.OddColumnCount := by
  obtain ⟨-, hshape, -⟩ := setup_so3_ft_ok_inv hF
  constructor
  · rw [hshape, getLastD_pair]
    exact Nat.mul_mod_right 2 _
  · intro hcon
    unfold so3_ft at hcon
    cases hset : setup_so3_ft D b grid x.device_type x.device_index with
    | error e =>
      simp only [hset] at hcon
      obtain rfl := Except.error.inj hcon
      rcases setup_so3_ft_error_inv hset with h | h <;> exact Err.noConfusion h
    | ok G =>
      simp only [hset] at hcon
      obtain ⟨-, hsh2, -⟩ := setup_so3_ft_ok_inv hset
      have heven : G.shape.getLastD 0 % 2 = 0 := by
        rw [hsh2, getLastD_pair]
        exact Nat.mul_mod_right 2 _
      exact so3_ft_apply_ne_odd heven hcon

/-- Witness for C8 at b = 1 and a one-point grid. -/
theorem so3_ft_even_columns_witness :
    (⟨[1, 2], [1, 0], DType.float32, "cpu", none⟩ : Tensor).shape.getLastD 0 % 2 = 0 ∧
    so3_ft D0 ⟨[1, 1], [3], DType.float32, "cpu", none⟩ 1 [(0, 0, 0)]
      ≠ Except.error Err.OddColumnCount :=
  so3_ft_even_columns D0 1 [(0, 0, 0)] "cpu" none _ _ (by with_unfolding_all rfl)

/-- C9: every matrix the builder returns has float32 dtype (the complex
double-precision Wigner-D samples are cast down), so a float64 input fails
the dtype check of the matrix multiply instead of yielding a float64 result. -/
theorem setup_so3_ft_float32 (D : Evaluator) (b : ℤ) (grid : GridT) (F x : Tensor)
    (hF : setup_so3_ft D b grid x.device_type x.device_index = Except.ok F)
    (hdt : x.dtype = DType.float64)
    (hlast : x.shape.getLast? = some grid.length) (hg : grid ≠ [])
    (hwf : wfTensor x) :
    F.dtype = DType.float32 ∧ so3_ft D x b grid = Except.error Err.DTypeMismatch := by
  obtain ⟨-, hshape, hdtF⟩ := setup_so3_ft_ok_inv hF
  refine ⟨hdtF, ?_⟩
  simp only [so3_ft, hF]
  rw [so3_ft_apply_dtype_mismatch hshape (List.length_pos.mpr hg) hlast hwf
      (by rw [hdt, hdtF]; exact fun h => DType.noConfusion h)]

/-- Witness for C9 with a float64 input against the float32 matrix. -/
theorem setup_so3_ft_float32_witness :
    (⟨[1, 2], [1, 0], DType.float32, "cpu", none⟩ : Tensor).dtype = DType.float32 ∧
    so3_ft D0 ⟨[1, 1], [3], DType.float64, "cpu", none⟩ 1 [(0, 0, 0)]
      = Except.error Err.DTypeMismatch :=
  setup_so3_ft_float32 D0 1 [(0, 0, 0)] _ ⟨[1, 1], [3], DType.float64, "cpu", none⟩
    (by with_unfolding_all rfl) rfl rfl (by decide) (by decide)

/-- C6 counterexample: with b = 1 the builder succeeds on the empty grid and
returns a zero-row matrix, refuting the claim that it always fails with
InvalidGrid on an empty grid and never returns a matrix. -/
theorem setup_so3_ft_empty_grid_ok :
    setup_so3_ft D0 1 [] "cpu" none =
      Except.ok ⟨[0, 2], [], DType.float32, "cpu", none⟩ := by
  with_unfolding_all rfl

/-- C6 amended: for b ≤ 0 the builder fails, but with numpy's untagged
TypeError (the empty `np.sum` makes `n_spectral` a float, which `np.zeros`
rejects as a dimension), not with a tagged InvalidBandwidth; and the grid is
not validated at all: for any b > 0 the empty grid succeeds, returning a
matrix with zero rows rather than failing with InvalidGrid. -/
theorem setup_so3_ft_no_validation (D : Evaluator) (b : ℤ) (grid : GridT)
    (dT : String) (dI : Option ℤ) :
    (b ≤ 0 → setup_so3_ft D b grid dT dI = Except.error Err.TypeError) ∧
    (0 < b → setup_so3_ft D b [] dT dI =
      Except.ok ⟨[0, 2 * n_spectral b.toNat], [], DType.float32, dT, dI⟩) := by
  constructor
  · intro hb
    simp [setup_so3_ft, hb]
  · intro hb
    have hnb : ¬ b ≤ 0 := by omega
    simp [setup_so3_ft, if_neg hnb, buildRows]

/-- Witness for the amended C6 at b = -1 and at b = 1 with the empty grid. -/
theorem setup_so3_ft_no_validation_witness :
    setup_so3_ft D0 (-1) [(0, 0, 0)] "cpu" none = Except.error Err.TypeError ∧
    setup_so3_ft D0 1 [] "cpu" none =
      Except.ok ⟨[0, 2 * n_spectral (1 : ℤ).toNat], [], DType.float32, "cpu", none⟩ :=
  ⟨(setup_so3_ft_no_validation D0 (-1) [(0, 0, 0)] "cpu" none).1 (by decide),
   (setup_so3_ft_no_validation D0 1 [] "cpu" none).2 (by decide)⟩

/-! ### Linearity of the transform -/

theorem zipWith_map_same {α β : Type} (f : β → β → β) (g h : α → β) :
    ∀ l : List α, List.zipWith f (l.map g) (l.map h) = l.map (fun x => f (g x) (h x))
  | [] => rfl
  | a :: t => by
    simp only [List.map_cons, List.zipWith_cons_cons, zipWith_map_same f g h t]

theorem getD_zipWith_add :
    ∀ (A B : List ℚ), A.length = B.length → ∀ i : ℕ,
      (List.zipWith (· + ·) A B).getD i 0 = A.getD i 0 + B.getD i 0
  | [], [], _, i => by simp
  | [], _ :: _, h, _ => by simp at h
  | _ :: _, [], h, _ => by simp at h
  | a :: A, b :: B, h, 0 => by simp
  | a :: A, b :: B, h, (i + 1) => by
    simp only [List.zipWith_cons_cons, List.getD_cons_succ]
    exact getD_zipWith_add A B (by simpa using h) i

theorem sum_map_add {α : Type} (f g : α → ℚ) :
    ∀ l : List α, (l.map (fun t => f t + g t)).sum = (l.map f).sum + (l.map g).sum
  | [] => by simp
  | a :: t => by
    simp only [List.map_cons, List.sum_cons, sum_map_add f g t]
    ring

theorem mmData_add (n k m : ℕ) (A1 A2 B : List ℚ) (h : A1.length = A2.length) :
    mmData n k m (List.zipWith (· + ·) A1 A2) B =
      List.zipWith (· + ·) (mmData n k m A1 B) (mmData n k m A2 B) := by
  unfold mmData
  rw [zipWith_map_same]
  refine List.map_congr_left (fun idx _ => ?_)
  rw [← sum_map_add]
  refine congrArg List.sum (List.map_congr_left (fun t _ => ?_))
  rw [getD_zipWith_add A1 A2 h, add_mul]

/-- C4: the transform is a fixed linear map: over the exact-arithmetic
embedding, the transform of the elementwise sum of two same-shape inputs is
the elementwise sum of their transforms. -/
theorem so3_ft_linear (D : Evaluator) (b : ℤ) (grid : GridT) (x1 x2 : Tensor)
    (hb : 0 < b) (hg : grid ≠ []) (hD : wfEval D b.toNat)
    (hwf1 : wfTensor x1) (hwf2 : wfTensor x2)
    (hsh : x1.shape = x2.shape)
    (hlast : x1.shape.getLast? = some grid.length)
    (hdt1 : x1.dtype = DType.float32) (hdt2 : x2.dtype = DType.float32) :
    ∃ y1 y2, so3_ft D x1 b grid = Except.ok y1 ∧ so3_ft D x2 b grid = Except.ok y2 ∧
      so3_ft D (tadd x1 x2) b grid = Except.ok (tadd y1 y2) := by
  have hR := List.length_pos.mpr hg
  obtain ⟨hset1, -⟩ := setup_so3_ft_of_wf hb hD grid x1.device_type x1.device_index
  obtain ⟨hset2, -⟩ := setup_so3_ft_of_wf hb hD grid x2.device_type x2.device_index
  have hlast2 : x2.shape.getLast? = some grid.length := by rw [← hsh]; exact hlast
  have hlen12 : x1.data.length = x2.data.length := by rw [hwf1, hwf2, hsh]
  have happ1 := so3_ft_apply_ok (F := ⟨[grid.length, 2 * n_spectral b.toNat],
      ((grid.map (wignerRow D b.toNat)).map viewFloat).flatten, DType.float32,
      x1.device_type, x1.device_index⟩) (x := x1) rfl hR hlast hwf1 (by rw [hdt1])
  have happ2 := so3_ft_apply_ok (F := ⟨[grid.length, 2 * n_spectral b.toNat],
      ((grid.map (wignerRow D b.toNat)).map viewFloat).flatten, DType.float32,
      x2.device_type, x2.device_index⟩) (x := x2) rfl hR hlast2 hwf2 (by rw [hdt2])
  have hwf3 : wfTensor (tadd x1 x2) := by
    simp only [wfTensor, tadd, List.length_zipWith]
    rw [hlen12, min_self, hwf2, hsh]
  have hlast3 : (tadd x1 x2).shape.getLast? = some grid.length := hlast
  have happ3 := so3_ft_apply_ok (F := ⟨[grid.length, 2 * n_spectral b.toNat],
      ((grid.map (wignerRow D b.toNat)).map viewFloat).flatten, DType.float32,
      x1.device_type, x1.device_index⟩) (x := tadd x1 x2) rfl hR hlast3 hwf3
      (by rw [show (tadd x1 x2).dtype = x1.dtype from rfl, hdt1])
  have hsetT : setup_so3_ft D b grid (tadd x1 x2).device_type
      (tadd x1 x2).device_index =
      Except.ok ⟨[grid.length, 2 * n_spectral b.toNat],
        ((grid.map (wignerRow D b.toNat)).map viewFloat).flatten, DType.float32,
        x1.device_type, x1.device_index⟩ := hset1
  refine ⟨⟨x1.shape.dropLast ++ [n_spectral b.toNat, 2],
      mmData x1.shape.dropLast.prod grid.length (2 * n_spectral b.toNat) x1.data
        ((grid.map (wignerRow D b.toNat)).map viewFloat).flatten,
      x1.dtype, x1.device_type, x1.device_index⟩,
    ⟨x2.shape.dropLast ++ [n_spectral b.toNat, 2],
      mmData x2.shape.dropLast.prod grid.length (2 * n_spectral b.toNat) x2.data
        ((grid.map (wignerRow D b.toNat)).map viewFloat).flatten,
      x2.dtype, x2.device_type, x2.device_index⟩, ?_, ?_, ?_⟩
  · simp only [so3_ft, hset1]
    rw [happ1]
  · simp only [so3_ft, hset2]
    rw [happ2]
  · simp only [so3_ft, hsetT]
    rw [happ3]
    simp only [tadd]
    rw [mmData_add _ _ _ x1.data x2.data _ hlen12, hsh]

/-- Witness for C4 with the inputs [[2]] and [[5]]. -/
theorem so3_ft_linear_witness :
    ∃ y1 y2, so3_ft D0 ⟨[1, 1], [2], DType.float32, "cpu", none⟩ 1 [(0, 0, 0)]
        = Except.ok y1 ∧
      so3_ft D0 ⟨[1, 1], [5], DType.float32, "cpu", none⟩ 1 [(0, 0, 0)]
        = Except.ok y2 ∧
      so3_ft D0 (tadd ⟨[1, 1], [2], DType.float32, "cpu", none⟩
          ⟨[1, 1], [5], DType.float32, "cpu", none⟩) 1 [(0, 0, 0)]
        = Except.ok (tadd y1 y2) :=
  so3_ft_linear D0 1 [(0, 0, 0)] ⟨[1, 1], [2], DType.float32, "cpu", none⟩
    ⟨[1, 1], [5], DType.float32, "cpu", none⟩ (by decide) (by decide) wfD0
    (by decide) (by decide) rfl rfl rfl rfl

/-! ### LRU behaviour of the cache -/

theorem take_append_take {α : Type} (a bl : List α) (n : ℕ) :
    (a ++ bl.take n).take n = (a ++ bl).take n := by
  rw [List.take_append_eq_append_take, List.take_append_eq_append_take, List.take_take,
    Nat.min_eq_left (Nat.sub_le n a.length)]

theorem getLastD_mem {α : Type} (l : List α) (d : α) (h : l ≠ []) : l.getLastD d ∈ l := by
  have h2 := List.getLast?_eq_getLast l h
  rw [List.getLastD_eq_getLast?, h2, Option.getD_some]
  exact List.getLast_mem h

theorem callKey_hit {D : Evaluator} {c : Cache} {k : Key} {v : Tensor}
    (h : cacheLookup c k = some v) :
    callKey D c k = (Except.ok v, (k, v) :: c.filter (fun p => !decide (p.1 = k)), 0) := by
  unfold callKey
  exact setup_so3_ft_cached_hit h

theorem callKey_miss {D : Evaluator} {c : Cache} {k : Key}
    (hfresh : cacheLookup c k = none) (hb : 0 < k.1) (hD : wfEval D k.1.toNat) :
    callKey D c k =
      (Except.ok ⟨[k.2.1.length, 2 * n_spectral k.1.toNat],
          ((k.2.1.map (wignerRow D k.1.toNat)).map viewFloat).flatten, DType.float32,
          k.2.2.1, k.2.2.2⟩,
        ((k, (⟨[k.2.1.length, 2 * n_spectral k.1.toNat],
          ((k.2.1.map (wignerRow D k.1.toNat)).map viewFloat).flatten, DType.float32,
          k.2.2.1, k.2.2.2⟩ : Tensor)) :: c).take 32,
        k.2.1.length * k.1.toNat) := by
  obtain ⟨hset, hcalls⟩ := setup_so3_ft_of_wf hb hD k.2.1 k.2.2.1 k.2.2.2
  have h := setup_so3_ft_cached_miss_ok (c := c) hfresh hset
  unfold callKey
  rw [h, hcalls]

theorem insertKeys_keys (D : Evaluator) :
    ∀ (ks : List Key) (c : Cache),
      (∀ k ∈ ks, 0 < k.1 ∧ wfEval D k.1.toNat) → ks.Nodup →
      (∀ k ∈ ks, k ∉ c.map Prod.fst) → c.length ≤ 32 →
      (insertKeys D c ks).map Prod.fst = (ks.reverse ++ c.map Prod.fst).take 32
  | [], c, _, _, _, hlen => by
    simp only [insertKeys, List.reverse_nil, List.nil_append]
    exact (List.take_of_length_le (by simpa using hlen)).symm
  | k :: ks, c, hsucc, hnd, hdisj, hlen => by
    have hfresh : cacheLookup c k = none :=
      cacheLookup_eq_none_iff.mpr (hdisj k (by simp))
    obtain ⟨hb, hD⟩ := hsucc k (by simp)
    have hmiss := callKey_miss (c := c) hfresh hb hD
    have hkeys2 : (callKey D c k).2.1.map Prod.fst = (k :: c.map Prod.fst).take 32 := by
      rw [hmiss]
      simp only [List.map_take, List.map_cons]
    have hlen2 : (callKey D c k).2.1.length ≤ 32 := by
      rw [hmiss]
      exact List.length_take_le _ _
    have hdisj2 : ∀ k' ∈ ks, k' ∉ (callKey D c k).2.1.map Prod.fst := by
      intro k' hk' hmem
      rw [hkeys2] at hmem
      rcases List.mem_cons.mp (List.take_subset _ _ hmem) with h | h
      · exact (List.nodup_cons.mp hnd).1 (h ▸ hk')
      · exact hdisj k' (by simp [hk']) h
    have ih := insertKeys_keys D ks (callKey D c k).2.1
      (fun k' h => hsucc k' (by simp [h])) (List.nodup_cons.mp hnd).2 hdisj2 hlen2
    show (insertKeys D (callKey D c k).2.1 ks).map Prod.fst = _
    rw [ih, hkeys2, take_append_take, List.reverse_cons, List.append_assoc,
      List.singleton_append]

/-- C7: the cache holds at most 32 entries with least-recently-used eviction:
after 33 distinct successful builds starting from an empty cache, the first
key has been evicted, so building it again costs `len(grid) * b` evaluator
invocations once more (a positive count), while the most recently inserted
key is still resident and is served with 0 invocations. -/
theorem setup_so3_ft_cache_lru (D : Evaluator) (ks : List Key)
    (hlen : ks.length = 33) (hnd : ks.Nodup)
    (hsucc : ∀ k ∈ ks, 0 < k.1 ∧ wfEval D k.1.toNat)
    (hgr : ∀ k ∈ ks, k.2.1 ≠ []) :
    (insertKeys D [] ks).length ≤ 32 ∧
    (callKey D (insertKeys D [] ks) (ks.headD dKey)).2.2
      = (ks.headD dKey).2.1.length * (ks.headD dKey).1.toNat ∧
    0 < (callKey D (insertKeys D [] ks) (ks.headD dKey)).2.2 ∧
    (∃ v, (callKey D (insertKeys D [] ks) (ks.getLastD dKey)).1 = Except.ok v) ∧
    (callKey D (insertKeys D [] ks) (ks.getLastD dKey)).2.2 = 0 := by
  cases ks with
  | nil => simp at hlen
  | cons k0 rest =>
    have hrest : rest.length = 32 := by simpa using hlen
    have hkeys := insertKeys_keys D (k0 :: rest) [] hsucc hnd (by simp) (by simp)
    rw [List.reverse_cons] at hkeys
    have hrev32 : rest.reverse.length = 32 := by simpa using hrest
    rw [List.map_nil, List.append_nil, List.take_left' hrev32] at hkeys
    have hk0nin : k0 ∉ (insertKeys D [] (k0 :: rest)).map Prod.fst := by
      rw [hkeys, List.mem_reverse]
      exact (List.nodup_cons.mp hnd).1
    have hfresh0 : cacheLookup (insertKeys D [] (k0 :: rest)) k0 = none :=
      cacheLookup_eq_none_iff.mpr hk0nin
    obtain ⟨hb0, hD0⟩ := hsucc k0 (by simp)
    have hmiss0 := callKey_miss (D := D) hfresh0 hb0 hD0
    have hlen32 : (insertKeys D [] (k0 :: rest)).length ≤ 32 := by
      have hm : ((insertKeys D [] (k0 :: rest)).map Prod.fst).length = 32 := by
        rw [hkeys]
        exact hrev32
      rw [List.length_map] at hm
      omega
    have hrne : rest ≠ [] := by
      intro h
      rw [h] at hrest
      simp at hrest
    have hlastmem : (k0 :: rest).getLastD dKey ∈ rest := by
      rw [List.getLastD_cons]
      exact getLastD_mem rest k0 hrne
    obtain ⟨v, hv⟩ := cacheLookup_isSome_of_mem
      (c := insertKeys D [] (k0 :: rest)) (k := (k0 :: rest).getLastD dKey)
      (by rw [hkeys, List.mem_reverse]; exact hlastmem)
    have hhit := callKey_hit (D := D) hv
    refine ⟨hlen32, ?_, ?_, ⟨v, by rw [hhit]⟩, by rw [hhit]⟩
    · rw [show (k0 :: rest).headD dKey = k0 from rfl, hmiss0]
    · rw [show (k0 :: rest).headD dKey = k0 from rfl, hmiss0]
      have h1 : 0 < k0.2.1.length := List.length_pos.mpr (hgr k0 (by simp))
      have h2 : 0 < k0.1.toNat := by omega
      exact Nat.mul_pos h1 h2

/-- Witness for C7 with 33 concrete keys differing in device index. -/
theorem setup_so3_ft_cache_lru_witness :
    (insertKeys D0 [] keys33).length ≤ 32 ∧
    (callKey D0 (insertKeys D0 [] keys33) (keys33.headD dKey)).2.2
      = (keys33.headD dKey).2.1.length * (keys33.headD dKey).1.toNat ∧
    0 < (callKey D0 (insertKeys D0 [] keys33) (keys33.headD dKey)).2.2 ∧
    (∃ v, (callKey D0 (insertKeys D0 [] keys33) (keys33.getLastD dKey)).1
      = Except.ok v) ∧
    (callKey D0 (insertKeys D0 [] keys33) (keys33.getLastD dKey)).2.2 = 0 :=
  setup_so3_ft_cache_lru D0 keys33 (by decide) (by decide)
    (by
      intro k hk
      simp only [keys33, List.mem_map] at hk
      obtain ⟨i, -, rfl⟩ := hk
      exact ⟨one_pos, wfD0⟩)
    (by
      intro k hk
      simp only [keys33, List.mem_map] at hk
      obtain ⟨i, -, rfl⟩ := hk
      simp)
